import Mathlib

/-!
Vicon to LCM publisher (`src/vicon_client.cpp`).

A shallow embedding of `main`, the `DataStreamClient` constructor and
`DataStreamClient::run`.  The capture source (the Vicon DataStream SDK
client), the clock and the stack are an explicit `World` that answers the
calls the program makes; the program is a function from that world to the
chronological list of the calls it performs (`Call`), publishes included.

The source computes on `double`; here the scalars are exact rationals, so
`x / 1000.0` is the exact quotient.
-/

namespace Vicon

/-! ## Data model -/

/-- The `double[3]` arrays (`Translation`, `msg.trans`). -/
structure Double3 where
  e0 : ℚ
  e1 : ℚ
  e2 : ℚ
deriving DecidableEq

/-- The `double[4]` arrays (`Rotation`, `msg.quat`). -/
structure Double4 where
  e0 : ℚ
  e1 : ℚ
  e2 : ℚ
  e3 : ℚ
deriving DecidableEq

/-- Read `a[i]` of a `double[3]`. -/
def Double3.get (a : Double3) : Nat → ℚ
  | 0 => a.e0
  | 1 => a.e1
  | _ => a.e2

/-- The array after `a[i] = v` on a `double[3]`. -/
def Double3.set (a : Double3) (i : Nat) (v : ℚ) : Double3 :=
  match i with
  | 0 => { a with e0 := v }
  | 1 => { a with e1 := v }
  | _ => { a with e2 := v }

/-- Read `a[i]` of a `double[4]`. -/
def Double4.get (a : Double4) : Nat → ℚ
  | 0 => a.e0
  | 1 => a.e1
  | 2 => a.e2
  | _ => a.e3

/-- The array after `a[i] = v` on a `double[4]`. -/
def Double4.set (a : Double4) (i : Nat) (v : ℚ) : Double4 :=
  match i with
  | 0 => { a with e0 := v }
  | 1 => { a with e1 := v }
  | 2 => { a with e2 := v }
  | _ => { a with e3 := v }

/-- The LCM message type `vicon_body_t` (its declaration is generated code
outside the sources; the fields are the ones `run` assigns). -/
structure vicon_body_t where
  utime : Int
  trans : Double3
  quat : Double4
deriving DecidableEq

/-- The SDK's `Result::Enum`; the source only names `Result::Success`. -/
inductive Result where
  | Success
  | NotConnected
  | NoFrame
  | Unknown
deriving DecidableEq

/-- The SDK's `Direction::Enum`, as listed by `Adapt`. -/
inductive Direction where
  | Forward
  | Backward
  | Left
  | Right
  | Up
  | Down
  | Other
deriving DecidableEq

/-- The SDK's `StreamMode::Enum`. -/
inductive StreamMode where
  | ClientPull
  | ClientPullPreFetch
  | ServerPush
deriving DecidableEq

/-- The SDK type `Output_GetAxisMapping`. -/
structure Output_GetAxisMapping where
  XAxis : Direction
  YAxis : Direction
  ZAxis : Direction
deriving DecidableEq

/-- The SDK type `Output_GetSegmentGlobalTranslation`: the fields `run` reads. -/
structure Output_GetSegmentGlobalTranslation where
  Translation : Double3
  Occluded : Bool
deriving DecidableEq

/-- The SDK type `Output_GetSegmentGlobalRotationQuaternion`: the field `run` reads. -/
structure Output_GetSegmentGlobalRotationQuaternion where
  Rotation : Double4
deriving DecidableEq

/-- What `gettimeofday` stores. -/
structure timeval where
  tv_sec : Int
  tv_usec : Int
deriving DecidableEq

/-- The scene the capture source holds after one `GetFrame` call: what each
per-frame query answers, as a function of the query's arguments. -/
structure Frame where
  GetSubjectCount : Nat
  GetSubjectName : Nat → String
  GetSubjectRootSegmentName : String → String
  GetSegmentGlobalTranslation : String → String → Output_GetSegmentGlobalTranslation
  GetSegmentGlobalRotationQuaternion :
    String → String → Output_GetSegmentGlobalRotationQuaternion

/-- The environment of the program.  `GetFrame n`, `frame n` and `stack n`
belong to the `n`-th `GetFrame` call (counted from 0): its result, the scene
the source holds after it, and the indeterminate contents of the
uninitialised local `msg` declared after it.  `clock n` is what the `n`-th
`gettimeofday` call stores. -/
structure World where
  IsConnected : String → Bool
  IsSegmentDataEnabled : Bool
  GetAxisMapping : Output_GetAxisMapping
  GetFrame : Nat → Result
  frame : Nat → Frame
  stack : Nat → vicon_body_t
  clock : Nat → timeval

/-- One observable call made by the program. -/
inductive Call where
  | setlinebuf
  | lcm_create
  | printf (text : String)
  | fprintf_stderr (text : String)
  | Connect (host : String)
  | IsConnected
  | EnableSegmentData
  | IsSegmentDataEnabled
  | Disconnect
  | SetStreamMode (mode : StreamMode)
  | SetAxisMapping (x y z : Direction)
  | GetAxisMapping
  | GetFrame
  | GetFrameNumber
  | gettimeofday
  | GetSubjectCount
  | GetSubjectName (subject_index : Nat)
  | GetSubjectRootSegmentName (subject_name : String)
  | GetSegmentGlobalTranslation (subject_name segment_name : String)
  | GetSegmentGlobalRotationQuaternion (subject_name segment_name : String)
  | usleep (usec : Nat)
  | vicon_body_t_publish (channel : String) (msg : vicon_body_t)
  | exit (status : Int)
deriving DecidableEq

/-! ## The program -/

/-- The macro `DEFAULT_MOCAP_HOST_ADDR`. -/
def DEFAULT_MOCAP_HOST_ADDR : String := "10.243.39.168"

/-- The macro `DEFAULT_MOCAP_HOST_PORT`. -/
def DEFAULT_MOCAP_HOST_PORT : String := "801"

/-- The function `_timestamp_now`, given what `gettimeofday` stored (clock
readings are far inside the `int64_t` range, so no wrap-around is modelled). -/
def _timestamp_now (tv : timeval) : Int :=
  tv.tv_sec * 1000000 + tv.tv_usec

/-- The overload `Adapt(const Direction::Enum)`. -/
def Adapt (i_Direction : Direction) : String :=
  match i_Direction with
  | .Forward => "Forward"
  | .Backward => "Backward"
  | .Left => "Left"
  | .Right => "Right"
  | .Up => "Up"
  | .Down => "Down"
  | .Other => "Unknown"

/-- How the constructor ends: `exit(1)` or a return to `main`. -/
inductive Ctor where
  | exited (status : Int)
  | returned
deriving DecidableEq

/-- The constructor `DataStreamClient::DataStreamClient`: the calls it makes and how it ends. -/
def DataStreamClient (w : World) (vicon_hostname : String) : List Call × Ctor :=
  let t1 := [Call.Connect vicon_hostname, Call.IsConnected]
  if !w.IsConnected vicon_hostname then
    (t1 ++ [Call.fprintf_stderr ("Error connecting to " ++ vicon_hostname ++ "\n"),
            Call.exit 1], Ctor.exited 1)
  else
    let t2 := t1 ++ [Call.EnableSegmentData, Call.IsSegmentDataEnabled]
    if !w.IsSegmentDataEnabled then
      (t2 ++ [Call.fprintf_stderr "Error enabling segment data\n", Call.Disconnect],
       Ctor.returned)
    else
      let axis_mapping := w.GetAxisMapping
      (t2 ++ [Call.SetStreamMode StreamMode.ClientPull,
              Call.SetAxisMapping Direction.Forward Direction.Left Direction.Up,
              Call.GetAxisMapping,
              Call.fprintf_stderr ("Axis Mapping: X-" ++ Adapt axis_mapping.XAxis ++
                " Y-" ++ Adapt axis_mapping.YAxis ++
                " Z-" ++ Adapt axis_mapping.ZAxis ++ "\n")],
       Ctor.returned)

/-- The `while (GetFrame().Result != Success)` loop of `run`.  `n` is the
number of `GetFrame` calls made before; `fuel` bounds the attempts.  Returns
the calls made and, when a frame was obtained, the index of the successful
`GetFrame` call (`none`: still failing when the fuel ran out). -/
def getFrameLoop (w : World) : Nat → Nat → List Call × Option Nat
  | 0, _ => ([], none)
  | fuel + 1, n =>
    if w.GetFrame n ≠ Result.Success then
      let r := getFrameLoop w fuel (n + 1)
      (Call.GetFrame :: Call.fprintf_stderr "Couldn't GetFrame()\n" :: Call.usleep 1000 :: r.1,
       r.2)
    else
      ([Call.GetFrame], some n)

/-- The channel name `run` builds for a subject: `"VICON_" + subject_name`. -/
def channel (subject_name : String) : String :=
  "VICON_" ++ subject_name

/-- The `for (int i = 0; i < 3; i++) msg.trans[i] = Translation[i]/1000.0`
loop, started at `i` with `k` rounds to go (`k = 3 - i`). -/
def transLoop (segment_translation : Output_GetSegmentGlobalTranslation) :
    Nat → Nat → vicon_body_t → vicon_body_t
  | 0, _, msg => msg
  | k + 1, i, msg =>
    transLoop segment_translation k (i + 1)
      { msg with trans := msg.trans.set i (segment_translation.Translation.get i / 1000) }

/-- One round of the subject loop of `run` for `subject_index`, on the
message buffer `msg`: the calls made and the buffer afterwards.  Subject
names reach the program as C strings, so `channel.c_str()` is the channel
string itself. -/
def subjectBody (fr : Frame) (subject_index : Nat) (msg : vicon_body_t) :
    List Call × vicon_body_t :=
  let subject_name := fr.GetSubjectName subject_index
  let root_segment_name := fr.GetSubjectRootSegmentName subject_name
  let segment_translation := fr.GetSegmentGlobalTranslation subject_name root_segment_name
  let t := [Call.GetSubjectName subject_index,
            Call.GetSubjectRootSegmentName subject_name,
            Call.GetSegmentGlobalTranslation subject_name root_segment_name]
  if segment_translation.Occluded then
    (t, msg)
  else
    let segment_rotation := fr.GetSegmentGlobalRotationQuaternion subject_name root_segment_name
    let msg := transLoop segment_translation 3 0 msg
    let msg := { msg with quat := msg.quat.set 0 (segment_rotation.Rotation.get 3) }
    let msg := { msg with quat := msg.quat.set 1 (segment_rotation.Rotation.get 0) }
    let msg := { msg with quat := msg.quat.set 2 (segment_rotation.Rotation.get 1) }
    let msg := { msg with quat := msg.quat.set 3 (segment_rotation.Rotation.get 2) }
    (t ++ [Call.GetSegmentGlobalRotationQuaternion subject_name root_segment_name,
           Call.vicon_body_t_publish (channel subject_name) msg], msg)

/-- The `for (subject_index = ...; subject_index < subject_count; ...)` loop
of `run`, started at `subject_index` with `k` rounds to go
(`k = subject_count - subject_index`). -/
def subjectLoop (fr : Frame) : Nat → Nat → vicon_body_t → List Call
  | 0, _, _ => []
  | k + 1, subject_index, msg =>
    let r := subjectBody fr subject_index msg
    r.1 ++ subjectLoop fr k (subject_index + 1) r.2

/-- What one pass of the `while (true)` body of `run` does once `GetFrame`
has succeeded: frame number, timestamp, subject count, subject loop.
`fr` is the scene, `tv` the clock reading, `msg` the uninitialised buffer. -/
def processFrame (fr : Frame) (tv : timeval) (msg : vicon_body_t) : List Call :=
  let msg := { msg with utime := _timestamp_now tv }
  let subject_count := fr.GetSubjectCount
  [Call.GetFrameNumber, Call.gettimeofday, Call.GetSubjectCount] ++
    subjectLoop fr subject_count 0 msg

/-- One pass of the `while (true)` body of `run`.  `n` counts the `GetFrame`
calls and `c` the `gettimeofday` calls made before the pass; `fuel` bounds
the pull attempts.  Returns the calls made and, when the pass completed, the
two counters afterwards. -/
def runBody (w : World) (fuel n c : Nat) : List Call × Option (Nat × Nat) :=
  match getFrameLoop w fuel n with
  | (t, none) => (t, none)
  | (t, some m) => (t ++ processFrame (w.frame m) (w.clock c) (w.stack m), some (m + 1, c + 1))

/-- The method `DataStreamClient::run`: the calls of the first `passes` passes of the
`while (true)` loop (fewer when a pull loop outlasts `fuel`).  The loop has
no exit, so the statements after it are never reached. -/
def run (w : World) (fuel : Nat) : Nat → Nat → Nat → List Call
  | 0, _, _ => []
  | passes + 1, n, c =>
    match runBody w fuel n c with
    | (t, none) => t
    | (t, some (n1, c1)) => t ++ run w fuel passes n1 c1

/-- The address string `main` builds from its arguments. -/
def vicon_host (argv : List String) : String :=
  let argc := argv.length
  let mocap_host_addr := DEFAULT_MOCAP_HOST_ADDR
  let mocap_host_port := DEFAULT_MOCAP_HOST_PORT
  let mocap_host_addr := if argc > 1 then argv.getD 1 "" else mocap_host_addr
  mocap_host_addr ++ ":" ++ mocap_host_port

/-- What is known of a run of the program: the calls made so far and the
exit status once the process has terminated. -/
structure Outcome where
  trace : List Call
  status : Option Int
deriving DecidableEq

/-- The function `main` on the argument vector `argv` (program name included), observed
for `passes` passes of `run` with `fuel` pull attempts each. -/
def main (w : World) (argv : List String) (fuel passes : Nat) : Outcome :=
  let host := vicon_host argv
  let t0 := [Call.setlinebuf, Call.lcm_create,
             Call.printf ("Vicon adddress: " ++ host ++ "\n")]
  match DataStreamClient w host with
  | (t1, Ctor.exited status) => { trace := t0 ++ t1, status := some status }
  | (t1, Ctor.returned) => { trace := t0 ++ t1 ++ run w fuel passes 0 0, status := none }

/-! ## Observations on a list of calls -/

/-- The messages published by a list of calls, in order, with their channels. -/
def published : List Call → List (String × vicon_body_t)
  | [] => []
  | Call.vicon_body_t_publish ch msg :: t => (ch, msg) :: published t
  | _ :: t => published t

/-- The addresses passed to `Connect` by a list of calls, in order. -/
def connects : List Call → List String
  | [] => []
  | Call.Connect host :: t => host :: connects t
  | _ :: t => connects t

/-- Whether the root-segment translation query of the subject at index `i`
of the scene reports `Occluded`. -/
def subjectOccluded (fr : Frame) (i : Nat) : Bool :=
  (fr.GetSegmentGlobalTranslation (fr.GetSubjectName i)
    (fr.GetSubjectRootSegmentName (fr.GetSubjectName i))).Occluded

/-- The translation the source returns for the root segment of subject `i`. -/
def subjectTranslation (fr : Frame) (i : Nat) : Double3 :=
  (fr.GetSegmentGlobalTranslation (fr.GetSubjectName i)
    (fr.GetSubjectRootSegmentName (fr.GetSubjectName i))).Translation

/-- The rotation quaternion the source returns for the root segment of subject `i`. -/
def subjectRotation (fr : Frame) (i : Nat) : Double4 :=
  (fr.GetSegmentGlobalRotationQuaternion (fr.GetSubjectName i)
    (fr.GetSubjectRootSegmentName (fr.GetSubjectName i))).Rotation

/-- The indices of the non-occluded subjects among `i, ..., i + k - 1`. -/
def visibleFrom (fr : Frame) (i k : Nat) : List Nat :=
  (List.range' i k).filter (fun j => !subjectOccluded fr j)

/-- The indices of the non-occluded subjects of a scene, in index order. -/
def visibleSubjects (fr : Frame) : List Nat :=
  visibleFrom fr 0 fr.GetSubjectCount

/-- The channel and message that go with subject `i` of a scene under the
timestamp `utime`: scaled translation, reordered quaternion. -/
def pose (fr : Frame) (utime : Int) (i : Nat) : String × vicon_body_t :=
  (channel (fr.GetSubjectName i),
   { utime := utime,
     trans := ⟨(subjectTranslation fr i).e0 / 1000, (subjectTranslation fr i).e1 / 1000,
               (subjectTranslation fr i).e2 / 1000⟩,
     quat := ⟨(subjectRotation fr i).e3, (subjectRotation fr i).e0,
              (subjectRotation fr i).e1, (subjectRotation fr i).e2⟩ })

/-! ## Concrete scenes and worlds -/

/-- A scene with three subjects; the second one is occluded. -/
def exampleFrame : Frame where
  GetSubjectCount := 3
  GetSubjectName := fun i => match i with
    | 0 => "Robot1"
    | 1 => "Wand"
    | _ => "Drone"
  GetSubjectRootSegmentName := fun s => if s = "Drone" then "Body" else s
  GetSegmentGlobalTranslation := fun s _ =>
    if s = "Robot1" then ⟨⟨1000, 2000, 3000⟩, false⟩
    else if s = "Wand" then ⟨⟨0, 0, 0⟩, true⟩
    else ⟨⟨-500, 250, 1500⟩, false⟩
  GetSegmentGlobalRotationQuaternion := fun s _ =>
    if s = "Robot1" then ⟨⟨0, 0, 0, 1⟩⟩ else ⟨⟨1, 2, 3, 4⟩⟩

/-- The scene of the spec's scenario: the single subject `Robot1`. -/
def robotFrame : Frame where
  GetSubjectCount := 1
  GetSubjectName := fun _ => "Robot1"
  GetSubjectRootSegmentName := fun _ => "Robot1"
  GetSegmentGlobalTranslation := fun _ _ => ⟨⟨1000, 2000, 3000⟩, false⟩
  GetSegmentGlobalRotationQuaternion := fun _ _ => ⟨⟨0, 0, 0, 1⟩⟩

/-- A world in which the first two `GetFrame` calls fail and the later ones
deliver `exampleFrame`. -/
def exampleWorld : World where
  IsConnected := fun _ => true
  IsSegmentDataEnabled := true
  GetAxisMapping := ⟨Direction.Forward, Direction.Left, Direction.Up⟩
  GetFrame := fun n => if n < 2 then Result.NoFrame else Result.Success
  frame := fun _ => exampleFrame
  stack := fun _ => ⟨0, ⟨7, 7, 7⟩, ⟨7, 7, 7, 7⟩⟩
  clock := fun n => ⟨1700000000 + n, 250⟩

/-- A world that delivers `robotFrame` at once. -/
def robotWorld : World where
  IsConnected := fun _ => true
  IsSegmentDataEnabled := true
  GetAxisMapping := ⟨Direction.Forward, Direction.Left, Direction.Up⟩
  GetFrame := fun _ => Result.Success
  frame := fun _ => robotFrame
  stack := fun _ => ⟨0, ⟨7, 7, 7⟩, ⟨7, 7, 7, 7⟩⟩
  clock := fun _ => ⟨1700000000, 250⟩

/-- A world whose capture source cannot be reached. -/
def unreachableWorld : World where
  IsConnected := fun _ => false
  IsSegmentDataEnabled := false
  GetAxisMapping := ⟨Direction.Other, Direction.Other, Direction.Other⟩
  GetFrame := fun _ => Result.NotConnected
  frame := fun _ => robotFrame
  stack := fun _ => ⟨0, ⟨7, 7, 7⟩, ⟨7, 7, 7, 7⟩⟩
  clock := fun _ => ⟨1700000000, 250⟩

/-- A world that connects but cannot enable segment data; once the client
has disconnected, `GetFrame` reports `NotConnected`. -/
def segmentDataFailsWorld : World where
  IsConnected := fun _ => true
  IsSegmentDataEnabled := false
  GetAxisMapping := ⟨Direction.Other, Direction.Other, Direction.Other⟩
  GetFrame := fun _ => Result.NotConnected
  frame := fun _ => robotFrame
  stack := fun _ => ⟨0, ⟨7, 7, 7⟩, ⟨7, 7, 7, 7⟩⟩
  clock := fun _ => ⟨1700000000, 250⟩

/-! ## Lemmas -/

theorem published_append (s t : List Call) :
    published (s ++ t) = published s ++ published t := by
  induction s with
  | nil => rfl
  | cons a s ih => cases a <;> simp [published, ih]

theorem channel_inj {a b : String} (h : channel a = channel b) : a = b := by
  have h2 := congrArg String.data h
  simp only [channel, String.data_append] at h2
  exact String.ext (List.append_cancel_left h2)

theorem transLoop_three (tr : Output_GetSegmentGlobalTranslation) (msg : vicon_body_t) :
    transLoop tr 3 0 msg =
      { utime := msg.utime,
        trans := ⟨tr.Translation.e0 / 1000, tr.Translation.e1 / 1000, tr.Translation.e2 / 1000⟩,
        quat := msg.quat } := by
  simp [transLoop, Double3.set, Double3.get]

theorem subjectBody_occluded (fr : Frame) (i : Nat) (msg : vicon_body_t)
    (h : subjectOccluded fr i = true) :
    published (subjectBody fr i msg).1 = [] ∧ (subjectBody fr i msg).2 = msg := by
  unfold subjectOccluded at h
  simp [subjectBody, h, published]

theorem subjectBody_visible (fr : Frame) (i : Nat) (msg : vicon_body_t)
    (h : subjectOccluded fr i = false) :
    published (subjectBody fr i msg).1 = [pose fr msg.utime i] ∧
      (subjectBody fr i msg).2 = (pose fr msg.utime i).2 := by
  unfold subjectOccluded at h
  simp [subjectBody, h, published, transLoop_three, Double4.set, Double4.get, pose,
    subjectTranslation, subjectRotation]

theorem visibleFrom_succ (fr : Frame) (i k : Nat) :
    visibleFrom fr i (k + 1) =
      (if subjectOccluded fr i then [] else [i]) ++ visibleFrom fr (i + 1) k := by
  unfold visibleFrom
  cases h : subjectOccluded fr i <;> simp [List.range'_succ, List.filter_cons, h]

theorem published_subjectLoop (fr : Frame) (k i : Nat) (msg : vicon_body_t) :
    published (subjectLoop fr k i msg) = (visibleFrom fr i k).map (pose fr msg.utime) := by
  induction k generalizing i msg with
  | zero => simp [subjectLoop, visibleFrom, published]
  | succ k ih =>
    rw [subjectLoop, visibleFrom_succ]
    simp only [published_append]
    cases h : subjectOccluded fr i
    · obtain ⟨h1, h2⟩ := subjectBody_visible fr i msg h
      rw [h1, h2, ih]
      simp [pose]
    · obtain ⟨h1, h2⟩ := subjectBody_occluded fr i msg h
      rw [h1, h2, ih]
      simp

theorem published_processFrame (fr : Frame) (tv : timeval) (msg : vicon_body_t) :
    published (processFrame fr tv msg) =
      (visibleSubjects fr).map (pose fr (_timestamp_now tv)) := by
  simp [processFrame, published, published_subjectLoop, visibleSubjects]

theorem published_getFrameLoop (w : World) (fuel n : Nat) :
    published (getFrameLoop w fuel n).1 = [] := by
  induction fuel generalizing n with
  | zero => rfl
  | succ fuel ih =>
    rw [getFrameLoop]
    split
    · simpa [published] using ih (n + 1)
    · rfl

theorem runBody_some (w : World) (fuel n c m : Nat) (h : (getFrameLoop w fuel n).2 = some m) :
    runBody w fuel n c =
      ((getFrameLoop w fuel n).1 ++ processFrame (w.frame m) (w.clock c) (w.stack m),
       some (m + 1, c + 1)) := by
  unfold runBody
  rcases hg : getFrameLoop w fuel n with ⟨t, o⟩
  rw [hg] at h
  simp only at h
  subst h
  rfl

theorem runBody_none (w : World) (fuel n c : Nat) (h : (getFrameLoop w fuel n).2 = none) :
    runBody w fuel n c = ((getFrameLoop w fuel n).1, none) := by
  unfold runBody
  rcases hg : getFrameLoop w fuel n with ⟨t, o⟩
  rw [hg] at h
  simp only at h
  subst h
  rfl

theorem published_runBody (w : World) (fuel n c m : Nat)
    (h : (getFrameLoop w fuel n).2 = some m) :
    published (runBody w fuel n c).1 =
      (visibleSubjects (w.frame m)).map (pose (w.frame m) (_timestamp_now (w.clock c))) := by
  rw [runBody_some w fuel n c m h]
  simp [published_append, published_getFrameLoop, published_processFrame]

theorem published_runBody_mem (w : World) (fuel n c : Nat) (p : String × vicon_body_t)
    (hp : p ∈ published (runBody w fuel n c).1) :
    ∃ m, (getFrameLoop w fuel n).2 = some m ∧ ∃ i, i ∈ visibleSubjects (w.frame m) ∧
      p = pose (w.frame m) (_timestamp_now (w.clock c)) i := by
  cases h : (getFrameLoop w fuel n).2 with
  | none =>
    rw [runBody_none w fuel n c h, published_getFrameLoop] at hp
    simp at hp
  | some m =>
    rw [published_runBody w fuel n c m h] at hp
    obtain ⟨i, hi, rfl⟩ := List.mem_map.1 hp
    exact ⟨m, rfl, i, hi, rfl⟩

theorem published_run_mem (w : World) (fuel passes n c : Nat) (p : String × vicon_body_t)
    (hp : p ∈ published (run w fuel passes n c)) :
    ∃ n1 c1, p ∈ published (runBody w fuel n1 c1).1 := by
  induction passes generalizing n c with
  | zero => simp [run, published] at hp
  | succ passes ih =>
    rw [run] at hp
    rcases hr : runBody w fuel n c with ⟨t, o⟩
    rw [hr] at hp
    cases o with
    | none => exact ⟨n, c, by rw [hr]; exact hp⟩
    | some nc =>
      obtain ⟨n1, c1⟩ := nc
      simp only [published_append, List.mem_append] at hp
      rcases hp with hp | hp
      · exact ⟨n, c, by rw [hr]; exact hp⟩
      · exact ih n1 c1 hp

theorem mem_visibleSubjects (fr : Frame) (i : Nat) :
    i ∈ visibleSubjects fr ↔ i < fr.GetSubjectCount ∧ subjectOccluded fr i = false := by
  simp [visibleSubjects, visibleFrom, List.mem_range']

theorem visibleSubjects_eq (fr : Frame) :
    visibleSubjects fr =
      (List.range fr.GetSubjectCount).filter (fun i => !subjectOccluded fr i) := by
  simp [visibleSubjects, visibleFrom, List.range_eq_range']

theorem mem_getFrameLoop (w : World) (fuel n : Nat) (x : Call)
    (hx : x ∈ (getFrameLoop w fuel n).1) :
    x = Call.GetFrame ∨ x = Call.fprintf_stderr "Couldn't GetFrame()\n" ∨
      x = Call.usleep 1000 := by
  induction fuel generalizing n with
  | zero => simp [getFrameLoop] at hx
  | succ fuel ih =>
    rw [getFrameLoop] at hx
    split at hx
    · simp only [List.mem_cons] at hx
      rcases hx with hx | hx | hx | hx
      · exact Or.inl hx
      · exact Or.inr (Or.inl hx)
      · exact Or.inr (Or.inr hx)
      · exact ih (n + 1) hx
    · simp only [List.mem_singleton] at hx
      exact Or.inl hx

theorem subjectBody_calls (fr : Frame) (i : Nat) (msg : vicon_body_t) :
    (subjectBody fr i msg).1 =
      [Call.GetSubjectName i,
       Call.GetSubjectRootSegmentName (fr.GetSubjectName i),
       Call.GetSegmentGlobalTranslation (fr.GetSubjectName i)
         (fr.GetSubjectRootSegmentName (fr.GetSubjectName i))] ++
      (if subjectOccluded fr i then []
       else [Call.GetSegmentGlobalRotationQuaternion (fr.GetSubjectName i)
               (fr.GetSubjectRootSegmentName (fr.GetSubjectName i)),
             Call.vicon_body_t_publish (pose fr msg.utime i).1 (pose fr msg.utime i).2]) := by
  cases h : subjectOccluded fr i
  · unfold subjectOccluded at h
    simp [subjectBody, h, transLoop_three, Double4.set, Double4.get, pose,
      subjectTranslation, subjectRotation]
  · unfold subjectOccluded at h
    simp [subjectBody, h]

theorem mem_subjectBody (fr : Frame) (i : Nat) (msg : vicon_body_t) (x : Call)
    (hx : x ∈ (subjectBody fr i msg).1) :
    (∃ j, x = Call.GetSubjectName j) ∨ (∃ s, x = Call.GetSubjectRootSegmentName s) ∨
      (∃ s r, x = Call.GetSegmentGlobalTranslation s r) ∨
      (∃ s r, x = Call.GetSegmentGlobalRotationQuaternion s r) ∨
      (∃ ch m, x = Call.vicon_body_t_publish ch m) := by
  rw [subjectBody_calls] at hx
  cases h : subjectOccluded fr i <;> simp [h] at hx
  · rcases hx with hx | hx | hx | hx | hx <;> simp [hx]
  · rcases hx with hx | hx | hx <;> simp [hx]

theorem mem_subjectLoop (fr : Frame) (k i : Nat) (msg : vicon_body_t) (x : Call)
    (hx : x ∈ subjectLoop fr k i msg) :
    (∃ j, x = Call.GetSubjectName j) ∨ (∃ s, x = Call.GetSubjectRootSegmentName s) ∨
      (∃ s r, x = Call.GetSegmentGlobalTranslation s r) ∨
      (∃ s r, x = Call.GetSegmentGlobalRotationQuaternion s r) ∨
      (∃ ch m, x = Call.vicon_body_t_publish ch m) := by
  induction k generalizing i msg with
  | zero => simp [subjectLoop] at hx
  | succ k ih =>
    rw [subjectLoop] at hx
    rcases List.mem_append.1 hx with hx | hx
    · exact mem_subjectBody fr i msg x hx
    · exact ih _ _ hx

theorem getSubjectName_mem_subjectLoop (fr : Frame) (k i : Nat) (msg : vicon_body_t) (j : Nat)
    (h1 : i ≤ j) (h2 : j < i + k) : Call.GetSubjectName j ∈ subjectLoop fr k i msg := by
  induction k generalizing i msg with
  | zero => omega
  | succ k ih =>
    rw [subjectLoop]
    apply List.mem_append.2
    by_cases hij : i = j
    · subst hij
      left
      rw [subjectBody_calls]
      simp
    · right
      exact ih (i + 1) _ (by omega) (by omega)

theorem connects_append (s t : List Call) :
    connects (s ++ t) = connects s ++ connects t := by
  induction s with
  | nil => rfl
  | cons a s ih => cases a <;> simp [connects, ih]

theorem connects_eq_nil (t : List Call) (h : ∀ a, Call.Connect a ∉ t) : connects t = [] := by
  induction t with
  | nil => rfl
  | cons x t ih =>
    have ht : ∀ a, Call.Connect a ∉ t := fun a ha => h a (List.mem_cons_of_mem _ ha)
    cases x <;> simp [connects, ih ht]
    exact h _ (List.mem_cons_self _ _)

theorem mem_runBody (w : World) (fuel n c : Nat) (x : Call) (hx : x ∈ (runBody w fuel n c).1) :
    (∀ a, x ≠ Call.Connect a) ∧ (∀ st, x ≠ Call.exit st) := by
  have hpull : ∀ y, y ∈ (getFrameLoop w fuel n).1 →
      (∀ a, y ≠ Call.Connect a) ∧ (∀ st, y ≠ Call.exit st) := by
    intro y hy
    rcases mem_getFrameLoop w fuel n y hy with h | h | h <;> subst h <;> simp
  cases h : (getFrameLoop w fuel n).2 with
  | none =>
    rw [runBody_none w fuel n c h] at hx
    exact hpull x hx
  | some m =>
    rw [runBody_some w fuel n c m h] at hx
    rcases List.mem_append.1 hx with hx | hx
    · exact hpull x hx
    · simp only [processFrame, List.cons_append, List.nil_append, List.mem_cons] at hx
      rcases hx with hx | hx | hx | hx
      · subst hx; simp
      · subst hx; simp
      · subst hx; simp
      · rcases mem_subjectLoop _ _ _ _ _ hx with
          ⟨_, h⟩ | ⟨_, h⟩ | ⟨_, _, h⟩ | ⟨_, _, h⟩ | ⟨_, _, h⟩ <;> subst h <;> simp

theorem mem_run (w : World) (fuel passes n c : Nat) (x : Call)
    (hx : x ∈ run w fuel passes n c) :
    (∀ a, x ≠ Call.Connect a) ∧ (∀ st, x ≠ Call.exit st) := by
  induction passes generalizing n c with
  | zero => simp [run] at hx
  | succ passes ih =>
    have hb := mem_runBody w fuel n c x
    rw [run] at hx
    rcases hr : runBody w fuel n c with ⟨t, o⟩
    rw [hr] at hx hb
    cases o with
    | none => exact hb hx
    | some nc =>
      obtain ⟨n1, c1⟩ := nc
      rcases List.mem_append.1 hx with hx | hx
      · exact hb hx
      · exact ih n1 c1 hx

theorem getFrameLoop_retry (w : World) (k : Nat) :
    ∀ (fuel n : Nat), (∀ j, j < k → w.GetFrame (n + j) ≠ Result.Success) →
      w.GetFrame (n + k) = Result.Success → k < fuel →
      getFrameLoop w fuel n =
        ((List.replicate k [Call.GetFrame, Call.fprintf_stderr "Couldn't GetFrame()\n",
            Call.usleep 1000]).flatten ++ [Call.GetFrame], some (n + k)) := by
  induction k with
  | zero =>
    intro fuel n _ hok hfuel
    obtain ⟨f, rfl⟩ : ∃ f, fuel = f + 1 := ⟨fuel - 1, by omega⟩
    rw [getFrameLoop]
    simp at hok
    simp [hok]
  | succ k ih =>
    intro fuel n hfail hok hfuel
    obtain ⟨f, rfl⟩ : ∃ f, fuel = f + 1 := ⟨fuel - 1, by omega⟩
    have h0 : w.GetFrame n ≠ Result.Success := by simpa using hfail 0 (by omega)
    have hrec := ih f (n + 1)
      (fun j hj => by
        have := hfail (j + 1) (by omega)
        rwa [show n + (j + 1) = n + 1 + j by omega] at this)
      (by rwa [show n + 1 + k = n + (k + 1) by omega])
      (by omega)
    rw [getFrameLoop]
    simp only [h0, ne_eq, not_false_eq_true, if_true, hrec]
    simp [List.replicate_succ, show n + 1 + k = n + (k + 1) by omega]

/-! ## The claims -/

/-- C1: once a pass of the body of `run` has pulled a frame, it publishes
exactly one message per non-occluded subject of that frame, in subject-index
order, the k-th on the channel `"VICON_"` followed by the name of the k-th
non-occluded subject; every message carries the timestamp of the one clock
reading of the pass, which comes after the pull and before the subject count
query and the subject loop. -/
theorem C1_pass_publishes_visible (w : World) (fuel n c m N : Nat)
    (hpull : (getFrameLoop w fuel n).2 = some m)
    (hN : ((List.range (w.frame m).GetSubjectCount).filter
            (fun i => !subjectOccluded (w.frame m) i)).length = N) :
    (published (runBody w fuel n c).1).length = N ∧
    (published (runBody w fuel n c).1).map Prod.fst =
      ((List.range (w.frame m).GetSubjectCount).filter
          (fun i => !subjectOccluded (w.frame m) i)).map
        (fun i => "VICON_" ++ (w.frame m).GetSubjectName i) ∧
    (∀ p ∈ published (runBody w fuel n c).1, p.2.utime = _timestamp_now (w.clock c)) ∧
    (runBody w fuel n c).1.count Call.gettimeofday = 1 ∧
    ∃ subjects, (runBody w fuel n c).1 =
        (getFrameLoop w fuel n).1 ++
          [Call.GetFrameNumber, Call.gettimeofday, Call.GetSubjectCount] ++ subjects ∧
      Call.gettimeofday ∉ (getFrameLoop w fuel n).1 ∧ Call.gettimeofday ∉ subjects := by
  have hP := published_runBody w fuel n c m hpull
  have hvis : visibleSubjects (w.frame m) =
      (List.range (w.frame m).GetSubjectCount).filter
        (fun i => !subjectOccluded (w.frame m) i) := by
    simp [visibleSubjects, visibleFrom, List.range_eq_range']
  rw [hvis] at hP
  have hnp : Call.gettimeofday ∉ (getFrameLoop w fuel n).1 := by
    intro hx
    rcases mem_getFrameLoop w fuel n _ hx with h | h | h <;> cases h
  have hns : ∀ msg, Call.gettimeofday ∉
      subjectLoop (w.frame m) (w.frame m).GetSubjectCount 0 msg := by
    intro msg hx
    rcases mem_subjectLoop _ _ _ _ _ hx with ⟨_, h⟩ | ⟨_, h⟩ | ⟨_, _, h⟩ | ⟨_, _, h⟩ | ⟨_, _, h⟩ <;>
      cases h
  have hrun := runBody_some w fuel n c m hpull
  refine ⟨?_, ?_, ?_, ?_, ?_⟩
  · rw [hP, List.length_map, hN]
  · rw [hP, List.map_map]
    rfl
  · intro p hp
    rw [hP] at hp
    obtain ⟨i, _, rfl⟩ := List.mem_map.1 hp
    rfl
  · rw [hrun]
    simp only [processFrame, List.count_append, List.count_eq_zero.2 hnp,
      List.count_eq_zero.2 (hns _)]
    decide
  · refine ⟨subjectLoop (w.frame m) (w.frame m).GetSubjectCount 0
      { w.stack m with utime := _timestamp_now (w.clock c) }, ?_, hnp, hns _⟩
    rw [hrun]
    simp only [processFrame, List.append_assoc]

/-- C1 at `exampleWorld`: the pull succeeds at the third attempt and the
scene has two non-occluded subjects. -/
theorem C1_pass_publishes_visible_witness :
    (getFrameLoop exampleWorld 3 0).2 = some 2 ∧
    ((List.range (exampleWorld.frame 2).GetSubjectCount).filter
        (fun i => !subjectOccluded (exampleWorld.frame 2) i)).length = 2 ∧
    (published (runBody exampleWorld 3 0 0).1).length = 2 :=
  ⟨by decide, by decide,
   (C1_pass_publishes_visible exampleWorld 3 0 0 2 2 (by decide) (by decide)).1⟩

/-- C2: every message published by `run` was published by a pass that had
pulled a frame, and in such a pass the published messages, in order, are on
the channels of the non-occluded subjects of the frame in index order, each
with a translation equal to that subject's root-segment global translation
with every component divided by 1000 (exact arithmetic), whatever the
message buffer held before. -/
theorem C2_translation_scaled (w : World) (fuel passes n c : Nat) (p : String × vicon_body_t)
    (hp : p ∈ published (run w fuel passes n c)) :
    ∃ n1 c1 m, (getFrameLoop w fuel n1).2 = some m ∧
      p ∈ published (runBody w fuel n1 c1).1 ∧
      (published (runBody w fuel n1 c1).1).map (fun q => (q.1, q.2.trans)) =
        ((List.range (w.frame m).GetSubjectCount).filter
            (fun i => !subjectOccluded (w.frame m) i)).map
          (fun i => ("VICON_" ++ (w.frame m).GetSubjectName i,
            (⟨(subjectTranslation (w.frame m) i).get 0 / 1000,
              (subjectTranslation (w.frame m) i).get 1 / 1000,
              (subjectTranslation (w.frame m) i).get 2 / 1000⟩ : Double3))) := by
  obtain ⟨n1, c1, hp1⟩ := published_run_mem w fuel passes n c p hp
  obtain ⟨m, hm, _⟩ := published_runBody_mem w fuel n1 c1 p hp1
  refine ⟨n1, c1, m, hm, hp1, ?_⟩
  rw [published_runBody w fuel n1 c1 m hm, visibleSubjects_eq, List.map_map]
  rfl

/-- C2 at `exampleWorld`: the message of the third subject, published after
the first subject's, carries the third subject's scaled translation. -/
theorem C2_translation_scaled_witness :
    (("VICON_Drone", ⟨1700000000000250, ⟨-1 / 2, 1 / 4, 3 / 2⟩, ⟨4, 1, 2, 3⟩⟩) :
        String × vicon_body_t) ∈ published (run exampleWorld 3 1 0 0) ∧
    ∃ n1 c1 m, (getFrameLoop exampleWorld 3 n1).2 = some m ∧
      (("VICON_Drone", ⟨1700000000000250, ⟨-1 / 2, 1 / 4, 3 / 2⟩, ⟨4, 1, 2, 3⟩⟩) :
        String × vicon_body_t) ∈ published (runBody exampleWorld 3 n1 c1).1 :=
  have hp : (("VICON_Drone", ⟨1700000000000250, ⟨-1 / 2, 1 / 4, 3 / 2⟩, ⟨4, 1, 2, 3⟩⟩) :
      String × vicon_body_t) ∈ published (run exampleWorld 3 1 0 0) := by
    simp [run, runBody, getFrameLoop, processFrame, subjectLoop, subjectBody, transLoop,
      published, exampleWorld, exampleFrame, channel, _timestamp_now, Double3.set,
      Double3.get, Double4.set, Double4.get]
    norm_num
  ⟨hp, by
    obtain ⟨n1, c1, m, h1, h2, _⟩ :=
      C2_translation_scaled exampleWorld 3 1 0 0 _ hp
    exact ⟨n1, c1, m, h1, h2⟩⟩

/-- C3: every message published by `run` was published by a pass that had
pulled a frame, and in such a pass the published messages, in order, are on
the channels of the non-occluded subjects of the frame in index order, each
with a quaternion holding that subject's root-segment rotation reordered:
output index 0 is input index 3 and output indices 1, 2, 3 are input
indices 0, 1, 2. -/
theorem C3_quaternion_reordered (w : World) (fuel passes n c : Nat)
    (p : String × vicon_body_t) (hp : p ∈ published (run w fuel passes n c)) :
    ∃ n1 c1 m, (getFrameLoop w fuel n1).2 = some m ∧
      p ∈ published (runBody w fuel n1 c1).1 ∧
      (published (runBody w fuel n1 c1).1).map
          (fun q => (q.1, q.2.quat.get 0, q.2.quat.get 1, q.2.quat.get 2, q.2.quat.get 3)) =
        ((List.range (w.frame m).GetSubjectCount).filter
            (fun i => !subjectOccluded (w.frame m) i)).map
          (fun i => ("VICON_" ++ (w.frame m).GetSubjectName i,
            (subjectRotation (w.frame m) i).get 3, (subjectRotation (w.frame m) i).get 0,
            (subjectRotation (w.frame m) i).get 1, (subjectRotation (w.frame m) i).get 2)) := by
  obtain ⟨n1, c1, hp1⟩ := published_run_mem w fuel passes n c p hp
  obtain ⟨m, hm, _⟩ := published_runBody_mem w fuel n1 c1 p hp1
  refine ⟨n1, c1, m, hm, hp1, ?_⟩
  rw [published_runBody w fuel n1 c1 m hm, visibleSubjects_eq, List.map_map]
  rfl

/-- C3 at `robotWorld`: the input quaternion (0, 0, 0, 1) is published as
(1, 0, 0, 0). -/
theorem C3_quaternion_reordered_witness :
    (("VICON_Robot1", ⟨1700000000000250, ⟨1, 2, 3⟩, ⟨1, 0, 0, 0⟩⟩) :
        String × vicon_body_t) ∈ published (run robotWorld 1 1 0 0) ∧
    ∃ n1 c1 m, (getFrameLoop robotWorld 1 n1).2 = some m ∧
      (("VICON_Robot1", ⟨1700000000000250, ⟨1, 2, 3⟩, ⟨1, 0, 0, 0⟩⟩) :
        String × vicon_body_t) ∈ published (runBody robotWorld 1 n1 c1).1 :=
  have hp : (("VICON_Robot1", ⟨1700000000000250, ⟨1, 2, 3⟩, ⟨1, 0, 0, 0⟩⟩) :
      String × vicon_body_t) ∈ published (run robotWorld 1 1 0 0) := by
    simp [run, runBody, getFrameLoop, processFrame, subjectLoop, subjectBody, transLoop,
      published, robotWorld, robotFrame, channel, _timestamp_now, Double3.set,
      Double3.get, Double4.set, Double4.get]
    norm_num
  ⟨hp, by
    obtain ⟨n1, c1, m, h1, h2, _⟩ :=
      C3_quaternion_reordered robotWorld 1 1 0 0 _ hp
    exact ⟨n1, c1, m, h1, h2⟩⟩

/-- C4: in a pass of the body of `run` that has pulled a frame, a subject
whose root-segment translation query reports `Occluded` gets no message on
its channel, and the loop goes on: every subject index of the frame is
queried and every non-occluded subject after the occluded one is published
on its channel. -/
theorem C4_occluded_skipped (w : World) (fuel n c m i : Nat)
    (hpull : (getFrameLoop w fuel n).2 = some m)
    (_hi : i < (w.frame m).GetSubjectCount)
    (hocc : ((w.frame m).GetSegmentGlobalTranslation ((w.frame m).GetSubjectName i)
      ((w.frame m).GetSubjectRootSegmentName ((w.frame m).GetSubjectName i))).Occluded = true) :
    (∀ msg, ("VICON_" ++ (w.frame m).GetSubjectName i, msg) ∉
        published (runBody w fuel n c).1) ∧
    (∀ j, j < (w.frame m).GetSubjectCount → Call.GetSubjectName j ∈ (runBody w fuel n c).1) ∧
    (∀ j, i < j → j < (w.frame m).GetSubjectCount →
      ((w.frame m).GetSegmentGlobalTranslation ((w.frame m).GetSubjectName j)
        ((w.frame m).GetSubjectRootSegmentName
          ((w.frame m).GetSubjectName j))).Occluded = false →
      ∃ msg, ("VICON_" ++ (w.frame m).GetSubjectName j, msg) ∈
        published (runBody w fuel n c).1) := by
  have hP := published_runBody w fuel n c m hpull
  refine ⟨?_, ?_, ?_⟩
  · intro msg hmem
    rw [hP] at hmem
    obtain ⟨j, hj, hpose⟩ := List.mem_map.1 hmem
    have hname : (w.frame m).GetSubjectName j = (w.frame m).GetSubjectName i :=
      channel_inj (congrArg Prod.fst hpose)
    have hj2 := ((mem_visibleSubjects _ _).1 hj).2
    unfold subjectOccluded at hj2
    rw [hname, hocc] at hj2
    cases hj2
  · intro j hj
    rw [runBody_some w fuel n c m hpull]
    simp only [processFrame]
    apply List.mem_append_right
    apply List.mem_append_right
    exact getSubjectName_mem_subjectLoop _ _ _ _ _ (Nat.zero_le _) (by omega)
  · intro j _ hj hvis
    refine ⟨(pose (w.frame m) (_timestamp_now (w.clock c)) j).2, ?_⟩
    rw [hP]
    exact List.mem_map.2 ⟨j, (mem_visibleSubjects _ _).2 ⟨hj, hvis⟩, rfl⟩

/-- C4 at `exampleWorld`: the occluded subject `Wand` (index 1) gets no
message and the later subject `Drone` is still published. -/
theorem C4_occluded_skipped_witness :
    (getFrameLoop exampleWorld 3 0).2 = some 2 ∧
    1 < (exampleWorld.frame 2).GetSubjectCount ∧
    ((exampleWorld.frame 2).GetSegmentGlobalTranslation
      ((exampleWorld.frame 2).GetSubjectName 1)
      ((exampleWorld.frame 2).GetSubjectRootSegmentName
        ((exampleWorld.frame 2).GetSubjectName 1))).Occluded = true ∧
    (∀ msg, ("VICON_" ++ (exampleWorld.frame 2).GetSubjectName 1, msg) ∉
        published (runBody exampleWorld 3 0 0).1) ∧
    Call.GetSubjectName 2 ∈ (runBody exampleWorld 3 0 0).1 :=
  ⟨by decide, by decide, by decide,
   (C4_occluded_skipped exampleWorld 3 0 0 2 1 (by decide) (by decide) (by decide)).1,
   (C4_occluded_skipped exampleWorld 3 0 0 2 1 (by decide) (by decide) (by decide)).2.1 2
     (by decide)⟩

/-- C8: a pass that pulls a frame holding the single subject `Robot1` with
root segment `Robot1`, translation (1000, 2000, 3000), rotation quaternion
(0, 0, 0, 1) and not occluded publishes exactly one message, on channel
`VICON_Robot1`, with translation (1, 2, 3) and quaternion (1, 0, 0, 0). -/
theorem C8_robot1_scenario (w : World) (fuel n c m : Nat)
    (hpull : (getFrameLoop w fuel n).2 = some m)
    (hcount : (w.frame m).GetSubjectCount = 1)
    (hname : (w.frame m).GetSubjectName 0 = "Robot1")
    (hroot : (w.frame m).GetSubjectRootSegmentName "Robot1" = "Robot1")
    (htrans : (w.frame m).GetSegmentGlobalTranslation "Robot1" "Robot1" =
      ⟨⟨1000, 2000, 3000⟩, false⟩)
    (hrot : (w.frame m).GetSegmentGlobalRotationQuaternion "Robot1" "Robot1" =
      ⟨⟨0, 0, 0, 1⟩⟩) :
    published (runBody w fuel n c).1 =
      [("VICON_Robot1",
        { utime := _timestamp_now (w.clock c), trans := ⟨1, 2, 3⟩, quat := ⟨1, 0, 0, 0⟩ })] := by
  rw [published_runBody w fuel n c m hpull]
  have hv : visibleSubjects (w.frame m) = [0] := by
    simp [visibleSubjects, visibleFrom, hcount, subjectOccluded, hname, hroot, htrans]
  rw [hv]
  simp only [List.map_cons, List.map_nil, pose, subjectTranslation, subjectRotation, hname,
    hroot, htrans, hrot, channel]
  norm_num
  decide

/-- C8 at `robotWorld`. -/
theorem C8_robot1_scenario_witness :
    (getFrameLoop robotWorld 1 0).2 = some 0 ∧
    (robotWorld.frame 0).GetSubjectCount = 1 ∧
    (robotWorld.frame 0).GetSubjectName 0 = "Robot1" ∧
    published (runBody robotWorld 1 0 0).1 =
      [("VICON_Robot1",
        { utime := _timestamp_now (robotWorld.clock 0),
          trans := ⟨1, 2, 3⟩, quat := ⟨1, 0, 0, 0⟩ })] :=
  ⟨by decide, by decide, by decide,
   C8_robot1_scenario robotWorld 1 0 0 0 (by decide) (by decide) (by decide) (by decide)
     rfl rfl⟩

/-- C9: the channel naming `name ↦ "VICON_" ++ name` used by `run` is
injective: distinct subject names give distinct channels, so messages
published for subjects with distinct names are on distinct channels. -/
theorem C9_channel_injective (a b : String) (hab : a ≠ b) :
    channel a = "VICON_" ++ a ∧ channel b = "VICON_" ++ b ∧ channel a ≠ channel b ∧
    ∀ (fr : Frame) (i j : Nat) (msg1 msg2 : vicon_body_t) (p q : String × vicon_body_t),
      fr.GetSubjectName i = a → fr.GetSubjectName j = b →
      p ∈ published (subjectBody fr i msg1).1 → q ∈ published (subjectBody fr j msg2).1 →
      p.1 ≠ q.1 := by
  refine ⟨rfl, rfl, fun h => hab (channel_inj h), ?_⟩
  intro fr i j msg1 msg2 p q ha hb hp hq
  have key : ∀ (k : Nat) (msg : vicon_body_t) (r : String × vicon_body_t),
      r ∈ published (subjectBody fr k msg).1 → r.1 = channel (fr.GetSubjectName k) := by
    intro k msg r hr
    cases h : subjectOccluded fr k
    · rw [(subjectBody_visible fr k msg h).1] at hr
      rw [List.mem_singleton.1 hr]
      rfl
    · rw [(subjectBody_occluded fr k msg h).1] at hr
      cases hr
  rw [key i msg1 p hp, key j msg2 q hq, ha, hb]
  exact fun h => hab (channel_inj h)

/-- C9 at the names `Robot1` and `Wand`. -/
theorem C9_channel_injective_witness :
    "Robot1" ≠ "Wand" ∧ channel "Robot1" ≠ channel "Wand" :=
  ⟨by decide, (C9_channel_injective "Robot1" "Wand" (by decide)).2.2.1⟩

/-- C7: if `GetFrame` fails on the first `k` attempts of a pass and succeeds
on the next one, then (given fuel for more than `k` attempts) the pull loop
makes exactly `k + 1` `GetFrame` calls, each failure followed by the log
line and one `usleep(1000)`, so `k` sleeps, and nothing else: no publish and
no subject query; the pass then goes on with the frame number, the
timestamp, the subject count and the subject loop on the frame pulled. -/
theorem C7_pull_retry (w : World) (fuel n c k : Nat)
    (hfail : ∀ j, j < k → w.GetFrame (n + j) ≠ Result.Success)
    (hok : w.GetFrame (n + k) = Result.Success) (hfuel : k < fuel) :
    (getFrameLoop w fuel n).2 = some (n + k) ∧
    (getFrameLoop w fuel n).1 =
      (List.replicate k [Call.GetFrame, Call.fprintf_stderr "Couldn't GetFrame()\n",
          Call.usleep 1000]).flatten ++ [Call.GetFrame] ∧
    (getFrameLoop w fuel n).1.count Call.GetFrame = k + 1 ∧
    (getFrameLoop w fuel n).1.count (Call.usleep 1000) = k ∧
    (∀ x ∈ (getFrameLoop w fuel n).1, x = Call.GetFrame ∨
      x = Call.fprintf_stderr "Couldn't GetFrame()\n" ∨ x = Call.usleep 1000) ∧
    published (getFrameLoop w fuel n).1 = [] ∧
    runBody w fuel n c =
      ((getFrameLoop w fuel n).1 ++
        Call.GetFrameNumber :: Call.gettimeofday :: Call.GetSubjectCount ::
          subjectLoop (w.frame (n + k)) (w.frame (n + k)).GetSubjectCount 0
            { w.stack (n + k) with utime := _timestamp_now (w.clock c) },
       some (n + k + 1, c + 1)) := by
  have h := getFrameLoop_retry w k fuel n hfail hok hfuel
  have h2 : (getFrameLoop w fuel n).2 = some (n + k) := by rw [h]
  refine ⟨h2, by rw [h], ?_, ?_, mem_getFrameLoop w fuel n, published_getFrameLoop w fuel n, ?_⟩
  · rw [h]
    simp [List.count_append, List.count_flatten, List.count_cons]
  · rw [h]
    simp [List.count_append, List.count_flatten, List.count_cons]
  · rw [runBody_some w fuel n c (n + k) h2]
    rfl

/-- C7 at `exampleWorld`, the scenario of the spec: two failures, then a
success; three `GetFrame` calls and two sleeps. -/
theorem C7_pull_retry_witness :
    (∀ j, j < 2 → exampleWorld.GetFrame (0 + j) ≠ Result.Success) ∧
    exampleWorld.GetFrame (0 + 2) = Result.Success ∧
    (getFrameLoop exampleWorld 5 0).1.count Call.GetFrame = 2 + 1 ∧
    (getFrameLoop exampleWorld 5 0).1.count (Call.usleep 1000) = 2 :=
  ⟨by decide, by decide,
   (C7_pull_retry exampleWorld 5 0 0 2 (by decide) (by decide) (by decide)).2.2.1,
   (C7_pull_retry exampleWorld 5 0 0 2 (by decide) (by decide) (by decide)).2.2.2.1⟩

/-- C5 (failing input): when the capture source connects but segment data
cannot be enabled, the constructor disconnects and returns, and `main` then
enters `run`: `GetFrame` is called after `Disconnect`, again and again.  No
stream mode or axis mapping is set. -/
theorem C5_run_entered_after_disconnect :
    (main segmentDataFailsWorld ["vicon_client"] 2 1).trace =
      [Call.setlinebuf, Call.lcm_create,
       Call.printf "Vicon adddress: 10.243.39.168:801\n",
       Call.Connect "10.243.39.168:801", Call.IsConnected,
       Call.EnableSegmentData, Call.IsSegmentDataEnabled,
       Call.fprintf_stderr "Error enabling segment data\n", Call.Disconnect,
       Call.GetFrame, Call.fprintf_stderr "Couldn't GetFrame()\n", Call.usleep 1000,
       Call.GetFrame, Call.fprintf_stderr "Couldn't GetFrame()\n", Call.usleep 1000] ∧
    (main segmentDataFailsWorld ["vicon_client"] 2 1).status = none := by
  decide

/-- C6: when the capture source reports not-connected after `Connect`, the
program ends with exit status 1, its last call is `exit(1)`, and it never
calls `EnableSegmentData` or `GetFrame` and publishes nothing; and whenever
the program exits with status 1, or calls `exit` at all, the capture source
had reported not-connected. -/
theorem C6_connect_failure_exits (w : World) (argv : List String) (fuel passes : Nat) :
    (w.IsConnected (vicon_host argv) = false →
      (main w argv fuel passes).status = some 1 ∧
      (main w argv fuel passes).trace.getLast? = some (Call.exit 1) ∧
      Call.EnableSegmentData ∉ (main w argv fuel passes).trace ∧
      Call.GetFrame ∉ (main w argv fuel passes).trace ∧
      published (main w argv fuel passes).trace = []) ∧
    ((main w argv fuel passes).status = some 1 → w.IsConnected (vicon_host argv) = false) ∧
    (∀ st, Call.exit st ∈ (main w argv fuel passes).trace →
      st = 1 ∧ w.IsConnected (vicon_host argv) = false) := by
  refine ⟨?_, ?_, ?_⟩
  · intro h
    simp [main, DataStreamClient, h, published]
  · intro h
    cases hc : w.IsConnected (vicon_host argv)
    · rfl
    · cases he : w.IsSegmentDataEnabled <;> simp [main, DataStreamClient, hc, he] at h
  · intro st h
    have hrun : ∀ st, Call.exit st ∉ run w fuel passes 0 0 :=
      fun st hx => (mem_run w fuel passes 0 0 _ hx).2 st rfl
    cases hc : w.IsConnected (vicon_host argv)
    · simp [main, DataStreamClient, hc] at h
      exact ⟨h, rfl⟩
    · cases he : w.IsSegmentDataEnabled <;>
        simp [main, DataStreamClient, hc, he, hrun] at h

/-- C6 at `unreachableWorld`. -/
theorem C6_connect_failure_exits_witness :
    unreachableWorld.IsConnected (vicon_host ["vicon_client"]) = false ∧
    (main unreachableWorld ["vicon_client"] 3 3).status = some 1 ∧
    Call.GetFrame ∉ (main unreachableWorld ["vicon_client"] 3 3).trace :=
  ⟨by decide,
   ((C6_connect_failure_exits unreachableWorld ["vicon_client"] 3 3).1 (by decide)).1,
   ((C6_connect_failure_exits unreachableWorld ["vicon_client"] 3 3).1 (by decide)).2.2.2.1⟩

/-- C10: `main` calls `Connect` exactly once, with the address
`h ++ ":" ++ "801"` where `h` is the first argument after the program name
when there is one and `"10.243.39.168"` otherwise; without an argument the
address is `"10.243.39.168:801"`, and the program name and the arguments
after the first play no part. -/
theorem C10_connect_address (w : World) (argv rest : List String) (prog h : String)
    (fuel passes : Nat) :
    connects (main w argv fuel passes).trace =
      [(match argv with
        | _ :: a :: _ => a
        | _ => "10.243.39.168") ++ ":" ++ "801"] ∧
    connects (main w [] fuel passes).trace = ["10.243.39.168:801"] ∧
    connects (main w [prog] fuel passes).trace = ["10.243.39.168:801"] ∧
    connects (main w (prog :: h :: rest) fuel passes).trace = [h ++ ":" ++ "801"] := by
  have hrun : connects (run w fuel passes 0 0) = [] :=
    connects_eq_nil _ (fun a hx => (mem_run w fuel passes 0 0 _ hx).1 a rfl)
  have key : ∀ av : List String, connects (main w av fuel passes).trace = [vicon_host av] := by
    intro av
    cases hc : w.IsConnected (vicon_host av)
    · simp [main, DataStreamClient, hc, connects]
    · cases he : w.IsSegmentDataEnabled <;>
        simp [main, DataStreamClient, hc, he, connects, connects_append, hrun]
  refine ⟨?_, ?_, ?_, ?_⟩
  · rw [key]
    rcases argv with _ | ⟨p0, _ | ⟨a, r⟩⟩ <;>
      simp [vicon_host, DEFAULT_MOCAP_HOST_ADDR, DEFAULT_MOCAP_HOST_PORT]
  · rw [key]
    decide
  · rw [key]
    simp [vicon_host, DEFAULT_MOCAP_HOST_ADDR, DEFAULT_MOCAP_HOST_PORT]
  · rw [key]
    simp [vicon_host, DEFAULT_MOCAP_HOST_PORT]

end Vicon
